import Mathlib

/-!
Verification of the `Data` attribute-mapping utility (`src/main.py`).

The program wraps a nested Python dict in an object whose attribute reads
fall back to a flattened view of the store, whose attribute writes always
land in the top-level store, and whose constructor injects default values
at `metadata.system.height` / `metadata.system.size`.

Shallow embedding: Python values are the inductive `Value` (dicts are
ordered association lists, matching Python 3.7+ dict ordering); `Data`
instances live on an explicit heap (`Heap`), addressed by `Value.ref`,
so that object identity (memoized materialization) is expressible.
Fallible Python code (paths that raise `TypeError` / `AttributeError`)
is modelled with `Except Unit` / `Option`.
-/

/-- A Python value as used by the program: the `None` sentinel, booleans,
numbers (ints and floats carry no arithmetic here, so an exact `Rat`
encoding of the literals is faithful), strings, dicts (ordered association
lists), sequences (lists), generic dataclass ("record") instances carrying
the dict their own `to_dict` returns, references to `Data` instances on the
heap, and `other` for opaque host objects such as bound methods. -/
inductive Value where
  | null : Value
  | bool (b : Bool) : Value
  | num (q : Rat) : Value
  | str (s : String) : Value
  | dict (entries : List (String × Value)) : Value
  | seq (elems : List Value) : Value
  | record (conv : List (String × Value)) : Value
  | ref (a : Nat) : Value
  | other (tag : String) : Value
deriving Repr

/-- First-occurrence lookup in an association list: Python `d[k]` / `d.get(k)`
on a dict, whose keys are unique; stated on raw lists for generality. -/
def dictGet? : List (String × Value) → String → Option Value
  | [], _ => Option.none
  | (k, v) :: rest, key => if key = k then some v else dictGet? rest key

/-- Python `key in d`. -/
def dictMem (d : List (String × Value)) (key : String) : Bool :=
  (dictGet? d key).isSome

/-- Python `d[k] = v`: replace the value at the first occurrence of `k`
(keeping its position, as dict insertion order does), else append. -/
def dictSet : List (String × Value) → String → Value → List (String × Value)
  | [], key, v => [(key, v)]
  | (k, w) :: rest, key, v =>
      if key = k then (k, v) :: rest else (k, w) :: dictSet rest key v

/-- Last-occurrence lookup: the value `dict(items)` associates to `key`
when `items` may repeat keys (later assignments overwrite earlier ones). -/
def dictLookupLast : List (String × Value) → String → Option Value
  | [], _ => Option.none
  | (k, v) :: rest, key =>
      match dictLookupLast rest key with
      | some w => some w
      | Option.none => if key = k then some v else Option.none

/-- Python `dict(items)`: start from the empty dict and perform the
assignments in order. -/
def dictOfItems (items : List (String × Value)) : List (String × Value) :=
  items.foldl (fun acc kv => dictSet acc kv.1 kv.2) []

/-- A `Data` instance: its single piece of state is the `_data` binding.
Normally a dict, but `__setattr__` can rebind it to anything. -/
structure Obj where
  store : Value
deriving Repr

/-- The heap of allocated `Data` instances; `Value.ref a` points at index `a`. -/
abbrev Heap := List Obj

/-- `_set_default_values` (src/main.py:157-179), run on the `_data` dict:
ensure `metadata` exists as a dict, ensure `metadata.system` exists as a
dict, then `setdefault` `height` to 100 and `size` to 10.  When `metadata`
(resp. `system`) is present but not a dict, the Python code raises
(`in` / item assignment / `.setdefault` on a non-dict): modelled as
`Except.error`. -/
def set_default_values (d : List (String × Value)) : Except Unit (List (String × Value)) :=
  let d1 := if dictMem d "metadata" then d else dictSet d "metadata" (Value.dict [])
  match dictGet? d1 "metadata" with
  | some (Value.dict md) =>
      let md1 := if dictMem md "system" then md else dictSet md "system" (Value.dict [])
      match dictGet? md1 "system" with
      | some (Value.dict sys) =>
          let sys1 := if dictMem sys "height" then sys else dictSet sys "height" (Value.num 100)
          let sys2 := if dictMem sys1 "size" then sys1 else dictSet sys1 "size" (Value.num 10)
          Except.ok (dictSet d1 "metadata" (Value.dict (dictSet md1 "system" (Value.dict sys2))))
      | _ => Except.error ()
  | _ => Except.error ()

/-- `Data.__init__` (src/main.py:29-46): bind `_data` to the keyword dict and
run `_set_default_values`; the new instance is allocated at the end of the
heap.  Errors propagate from default injection. -/
def data_init (kwargs : List (String × Value)) (h : Heap) : Except Unit (Nat × Heap) :=
  match set_default_values kwargs with
  | Except.error e => Except.error e
  | Except.ok d => Except.ok (h.length, h ++ [⟨Value.dict d⟩])

/-- `Data.from_dict` (src/main.py:48-56): `cls(**data_dict)`. -/
def from_dict (data_dict : List (String × Value)) (h : Heap) : Except Unit (Nat × Heap) :=
  data_init data_dict h

/-- `flatten_dict`'s accumulated `items` list (src/main.py:150-154): for each
entry, if the value is a dict first extend with the flattened sub-dict's
items, then append the entry itself. -/
def flatten_items : List (String × Value) → List (String × Value)
  | [] => []
  | (k, Value.dict sub) :: rest =>
      dictOfItems (flatten_items sub) ++ (k, Value.dict sub) :: flatten_items rest
  | (k, v) :: rest => (k, v) :: flatten_items rest

/-- `flatten_dict` (src/main.py:141-155): `dict(items)`. -/
def flatten_dict (d : List (String × Value)) : List (String × Value) :=
  dictOfItems (flatten_items d)

/-- Python `attr.startswith('_')`: the first character of the name is an
underscore (false for the empty string, as in Python). -/
def startsWithUnderscore (s : String) : Bool :=
  s.data.head? = some '_'

/-- The attribute names Python's normal lookup (`__getattribute__`)
resolves on a `Data` instance before `__getattr__` is ever consulted:
the `_data` instance slot, the methods the class defines, and the
inherited object/dataclass attributes. -/
def classAttrs : List String :=
  ["_data", "from_dict", "to_dict", "flatten_dict",
   "_set_default_values", "_convert_dataclasses_to_dict",
   "__init__", "__getattr__", "__setattr__", "__dir__", "__class__",
   "__dict__", "__doc__", "__module__", "__eq__", "__repr__", "__hash__",
   "__dataclass_fields__", "__dataclass_params__", "__init_subclass__",
   "__subclasshook__", "__sizeof__", "__str__", "__ne__", "__new__",
   "__reduce__", "__reduce_ex__", "__getattribute__", "__delattr__",
   "__format__", "__lt__", "__le__", "__gt__", "__ge__", "__weakref__"]

/-- Attribute read on instance `a`, as Python resolves it.

Normal lookup comes first: a name matching the `_data` slot or one of
the class's own attributes resolves to the bound method or slot
(modelled opaquely as `Value.other`) regardless of the store's contents,
and `Data.__getattr__` (src/main.py:87-125) runs only when that lookup
fails:

* a key present in `_data` is returned, a plain-dict value being first
  replaced in place by a freshly constructed `Data(**value)` (which may
  itself raise during default injection) and returned as a reference;
* otherwise an underscore-prefixed name falls back to
  `super().__getattribute__`, which re-runs the normal lookup that has
  already failed here, raising `AttributeError`;
* otherwise the name is looked up in `flatten_dict(_data)`, `None` when
  absent.

A dangling reference or a store rebound to a non-dict makes the store
accesses raise: modelled as `Except.error`. -/
def getattr (h : Heap) (a : Nat) (attr : String) : Except Unit (Value × Heap) :=
  if attr ∈ classAttrs then Except.ok (Value.other attr, h)
  else
    match h[a]? with
    | Option.none => Except.error ()
    | some obj =>
        match obj.store with
        | Value.dict d =>
            match dictGet? d attr with
            | some (Value.dict sub) =>
                match data_init sub h with
                | Except.error e => Except.error e
                | Except.ok (a2, h1) =>
                    Except.ok (Value.ref a2,
                      h1.set a ⟨Value.dict (dictSet d attr (Value.ref a2))⟩)
            | some v => Except.ok (v, h)
            | Option.none =>
                if startsWithUnderscore attr then Except.error ()
                else
                  Except.ok ((dictGet? (flatten_dict d) attr).getD Value.null, h)
        | _ => Except.error ()

/-- `Data.__setattr__` (src/main.py:127-139): assigning `_data` rebinds the
store itself (to any value); any other name is inserted or overwritten in
the top-level store.  The latter raises when the store has been rebound to
a non-dict (item assignment on a non-dict). -/
def setattr (h : Heap) (a : Nat) (attr : String) (v : Value) : Except Unit Heap :=
  match h[a]? with
  | Option.none => Except.error ()
  | some obj =>
      if attr = "_data" then Except.ok (h.set a ⟨v⟩)
      else
        match obj.store with
        | Value.dict d => Except.ok (h.set a ⟨Value.dict (dictSet d attr v)⟩)
        | _ => Except.error ()

mutual

/-- `_convert_dataclasses_to_dict` (src/main.py:68-85) on a single stored
value, together with `convert_dict` on a whole dict.  `is_dataclass` is
true both of generic record instances (whose own `to_dict` result they
carry verbatim - the code does not recurse into it) and of `Data`
instances, whose `to_dict` converts their store through the heap; `fuel`
bounds only the number of heap dereferences (Python recursion through
object references need not terminate; exhaustion is `Option.none`).
Plain dict values are converted recursively; every other value - including
sequences - is copied unchanged.  A referenced instance whose store is not
a dict makes `.items()` raise: `Option.none`. -/
def convert_value (fuel : Nat) (h : Heap) : Value → Option Value
  | Value.ref a =>
      match fuel with
      | 0 => Option.none
      | fuel' + 1 =>
          match h[a]? with
          | some obj =>
              match obj.store with
              | Value.dict d => (convert_dict fuel' h d).map Value.dict
              | _ => Option.none
          | Option.none => Option.none
  | Value.record conv => some (Value.dict conv)
  | Value.dict d => (convert_dict fuel h d).map Value.dict
  | v => some v

/-- `_convert_dataclasses_to_dict` (src/main.py:68-85) over the entries of
a dict: `result[key]` is set for each key in order. -/
def convert_dict (fuel : Nat) (h : Heap) : List (String × Value) → Option (List (String × Value))
  | [] => some []
  | (k, v) :: rest =>
      match convert_value fuel h v with
      | some v' =>
          match convert_dict fuel h rest with
          | some rest' => some ((k, v') :: rest')
          | Option.none => Option.none
      | Option.none => Option.none

end

/-- `Data.to_dict` (src/main.py:58-66): convert the store.  Raises
(`Option.none`) if `_data` was rebound to a non-dict. -/
def to_dict (fuel : Nat) (h : Heap) (a : Nat) : Option (List (String × Value)) :=
  match h[a]? with
  | some obj =>
      match obj.store with
      | Value.dict d => convert_dict fuel h d
      | _ => Option.none
  | Option.none => Option.none

/-- The raw key/value walk of the store described by the spec's fallback
rule, stated in the spec's own terms for comparison with `flatten_dict`:
"for each entry in a mapping, first recurse into it if it is itself a
mapping - inserting each of its flattened descendant pairs - and only
after that insert the entry's own key/value pair; siblings are processed
in the mapping's natural iteration order", later occurrences overwriting
earlier ones (here: kept as a raw pair list, looked up last-occurrence
first). -/
def specWalkItems : List (String × Value) → List (String × Value)
  | [] => []
  | (k, Value.dict sub) :: rest =>
      specWalkItems sub ++ (k, Value.dict sub) :: specWalkItems rest
  | (k, v) :: rest => (k, v) :: specWalkItems rest

mutual

/-- A value is plain when it contains no record (dataclass) instance and no
`Data` instance anywhere - dicts and sequences are searched recursively. -/
def plainV : Value → Bool
  | Value.ref _ => false
  | Value.record _ => false
  | Value.dict d => plainD d
  | Value.seq xs => plainL xs
  | _ => true

/-- All values of a dict are plain. -/
def plainD : List (String × Value) → Bool
  | [] => true
  | (_, v) :: rest => plainV v && plainD rest

/-- All elements of a sequence are plain. -/
def plainL : List Value → Bool
  | [] => true
  | v :: rest => plainV v && plainL rest

end

/-- The value stored at `metadata.system`, when `metadata` is a dict
containing `system`. -/
def pathMS (d : List (String × Value)) : Option Value :=
  match dictGet? d "metadata" with
  | some (Value.dict md) => dictGet? md "system"
  | _ => Option.none

/-- The dict `m` already defines `metadata.system.height` and
`metadata.system.size` (with `metadata` and `system` dicts). -/
def hasDefaults (d : List (String × Value)) : Bool :=
  match pathMS d with
  | some (Value.dict sys) => dictMem sys "height" && dictMem sys "size"
  | _ => false

/-- The shapes of `metadata` / `metadata.system` on which default injection
does not raise: each, when present, is a dict. -/
def wfKwargs (d : List (String × Value)) : Bool :=
  match dictGet? d "metadata" with
  | Option.none => true
  | some (Value.dict md) =>
      match dictGet? md "system" with
      | Option.none => true
      | some (Value.dict _) => true
      | some _ => false
  | some _ => false

/-- `d` has no entry at all for `metadata.system` (either no `metadata`
dict entry, or its dict lacks `system`): the configuration in which
default injection creates the whole path. -/
def lacksMS (d : List (String × Value)) : Bool :=
  match dictGet? d "metadata" with
  | Option.none => true
  | some (Value.dict md) => !(dictMem md "system")
  | some _ => true

/-- The value the caller supplied at `metadata.system.<key>`, when the whole
path exists as dicts. -/
def msGet (d : List (String × Value)) (key : String) : Option Value :=
  match pathMS d with
  | some (Value.dict sys) => dictGet? sys key
  | _ => Option.none

/-- The mapping of the flatten-then-lookup scenario:
`{"metadata": {"system": {"size": 10.7, "height": 11}, "user": {"batch": 1121}}}`. -/
def exampleC1 : List (String × Value) :=
  [("metadata", Value.dict
      [("system", Value.dict [("size", Value.num 10.7), ("height", Value.num 11)]),
       ("user", Value.dict [("batch", Value.num 1121)])])]

/-- The store `Data()` builds when given no entries at all: only the
injected defaults. -/
def defaultStore : List (String × Value) :=
  [("metadata", Value.dict
      [("system", Value.dict [("height", Value.num 100), ("size", Value.num 10)])])]

/-- The instance store of the C5 scenario: `metadata.system.height` is 11. -/
def exampleC5 : List (String × Value) :=
  [("metadata", Value.dict
      [("system", Value.dict [("height", Value.num 11), ("size", Value.num 10)])])]

/-- The mapping of the C9 scenario:
`{"metadata": {"system": {"height": 11, "size": 10.7}}}`. -/
def exampleC9 : List (String × Value) :=
  [("metadata", Value.dict
      [("system", Value.dict [("height", Value.num 11), ("size", Value.num 10.7)])])]

/-- The store of the wrapper that materializing `metadata` of `exampleC9`
builds: the sub-mapping's entries plus the defaults that construction
injects into the wrapper itself. -/
def exampleC9Wrapper : List (String × Value) :=
  [("system", Value.dict [("height", Value.num 11), ("size", Value.num 10.7)]),
   ("metadata", Value.dict
      [("system", Value.dict [("height", Value.num 100), ("size", Value.num 10)])])]

/-! ### Association-list lemmas -/

theorem dictGet_set (d : List (String × Value)) (key k : String) (v : Value) :
    dictGet? (dictSet d key v) k = if k = key then some v else dictGet? d k := by
  induction d with
  | nil =>
      by_cases hk : k = key <;> simp [dictSet, dictGet?, hk]
  | cons hd tl ih =>
      obtain ⟨k0, v0⟩ := hd
      by_cases h0 : key = k0
      · subst h0
        by_cases hk : k = key <;> simp [dictSet, dictGet?, hk]
      · by_cases hk : k = k0
        · subst hk
          have : ¬ k = key := fun he => h0 he.symm
          simp [dictSet, h0, dictGet?, this]
        · simp [dictSet, h0, dictGet?, hk, ih]

theorem dictSet_self (d : List (String × Value)) (k : String) (v : Value)
    (h : dictGet? d k = some v) : dictSet d k v = d := by
  induction d with
  | nil => simp [dictGet?] at h
  | cons hd tl ih =>
      obtain ⟨k0, v0⟩ := hd
      by_cases hk : k = k0
      · subst hk
        simp [dictGet?] at h
        simp [dictSet, h]
      · simp [dictGet?, hk] at h
        simp [dictSet, hk, ih h]

theorem dictLookupLast_append (l1 l2 : List (String × Value)) (k : String) :
    dictLookupLast (l1 ++ l2) k =
      match dictLookupLast l2 k with
      | some w => some w
      | Option.none => dictLookupLast l1 k := by
  induction l1 with
  | nil =>
      simp only [List.nil_append, dictLookupLast]
      cases h2 : dictLookupLast l2 k <;> simp
  | cons hd tl ih =>
      obtain ⟨k0, v0⟩ := hd
      simp only [List.cons_append, dictLookupLast]
      cases h2 : dictLookupLast l2 k <;> cases ht : dictLookupLast tl k <;>
        simp [ih, h2, ht]

theorem dictGet_foldlSet (l : List (String × Value)) (acc : List (String × Value)) (k : String) :
    dictGet? (l.foldl (fun acc kv => dictSet acc kv.1 kv.2) acc) k =
      match dictLookupLast l k with
      | some w => some w
      | Option.none => dictGet? acc k := by
  induction l generalizing acc with
  | nil => simp [dictLookupLast]
  | cons hd tl ih =>
      obtain ⟨k0, v0⟩ := hd
      simp only [List.foldl_cons, ih, dictLookupLast, dictGet_set]
      cases dictLookupLast tl k with
      | none =>
          by_cases hk : k = k0 <;> simp [hk]
      | some w => simp

theorem dictGet_dictOfItems (l : List (String × Value)) (k : String) :
    dictGet? (dictOfItems l) k = dictLookupLast l k := by
  have := dictGet_foldlSet l [] k
  simp only [dictOfItems, this, dictGet?]
  cases dictLookupLast l k <;> simp

theorem dictGet_eq_none_iff (d : List (String × Value)) (k : String) :
    dictGet? d k = Option.none ↔ k ∉ d.map Prod.fst := by
  induction d with
  | nil => simp [dictGet?]
  | cons hd tl ih =>
      obtain ⟨k0, v0⟩ := hd
      by_cases hk : k = k0 <;> simp [dictGet?, hk, ih]

theorem keys_dictSet (d : List (String × Value)) (k : String) (v : Value) :
    (dictSet d k v).map Prod.fst =
      if dictMem d k then d.map Prod.fst else d.map Prod.fst ++ [k] := by
  induction d with
  | nil => simp [dictSet, dictMem, dictGet?]
  | cons hd tl ih =>
      obtain ⟨k0, v0⟩ := hd
      by_cases hk : k = k0
      · subst hk
        simp [dictSet, dictMem, dictGet?]
      · simp only [dictSet, if_neg (fun he : k = k0 => hk he), dictMem, dictGet?,
          if_neg hk, List.map_cons, ih, dictMem]
        by_cases hm : (dictGet? tl k).isSome <;> simp [hm]

theorem nodup_keys_dictSet (d : List (String × Value)) (k : String) (v : Value)
    (h : (d.map Prod.fst).Nodup) : ((dictSet d k v).map Prod.fst).Nodup := by
  rw [keys_dictSet]
  by_cases hm : dictMem d k
  · simpa [hm]
  · have hk : k ∉ d.map Prod.fst := by
      rw [← dictGet_eq_none_iff]
      simpa [dictMem] using hm
    simp [hm, List.nodup_append, h, hk]

theorem nodup_keys_foldlSet (l acc : List (String × Value))
    (h : (acc.map Prod.fst).Nodup) :
    ((l.foldl (fun acc kv => dictSet acc kv.1 kv.2) acc).map Prod.fst).Nodup := by
  induction l generalizing acc with
  | nil => simpa
  | cons hd tl ih => exact ih _ (nodup_keys_dictSet _ _ _ h)

theorem nodup_keys_dictOfItems (l : List (String × Value)) :
    ((dictOfItems l).map Prod.fst).Nodup :=
  nodup_keys_foldlSet l [] (by simp)

theorem dictLookupLast_eq_get_of_nodup (d : List (String × Value)) (k : String)
    (h : (d.map Prod.fst).Nodup) : dictLookupLast d k = dictGet? d k := by
  induction d with
  | nil => rfl
  | cons hd tl ih =>
      obtain ⟨k0, v0⟩ := hd
      simp only [List.map_cons, List.nodup_cons] at h
      by_cases hk : k = k0
      · subst hk
        have hnone : dictGet? tl k = Option.none := (dictGet_eq_none_iff tl k).mpr h.1
        simp [dictLookupLast, dictGet?, ih h.2, hnone]
      · simp only [dictLookupLast, dictGet?, if_neg hk, ih h.2]
        cases dictGet? tl k <;> simp [hk]

theorem dictLookupLast_dictOfItems (l : List (String × Value)) (k : String) :
    dictLookupLast (dictOfItems l) k = dictLookupLast l k := by
  rw [dictLookupLast_eq_get_of_nodup _ _ (nodup_keys_dictOfItems l), dictGet_dictOfItems]

/-! ### Flattening lemmas -/

theorem lookupLast_flatten_items (d : List (String × Value)) (k : String) :
    dictLookupLast (flatten_items d) k = dictLookupLast (specWalkItems d) k := by
  induction d using flatten_items.induct with
  | case1 => simp [flatten_items, specWalkItems]
  | case2 k0 sub rest ihs ihr =>
      simp only [flatten_items, specWalkItems, dictLookupLast_append,
        dictLookupLast_dictOfItems, dictLookupLast, ihs, ihr]
  | case3 k0 v rest hnd ih =>
      cases v <;> simp_all [flatten_items, specWalkItems, dictLookupLast]

theorem flatten_get_eq_specWalk (d : List (String × Value)) (k : String) :
    dictGet? (flatten_dict d) k = dictLookupLast (specWalkItems d) k := by
  rw [flatten_dict, dictGet_dictOfItems, lookupLast_flatten_items]

theorem lookupLast_flatten_items_top (d : List (String × Value)) (k : String) (v : Value)
    (h : dictGet? d k = some v) : (dictLookupLast (flatten_items d) k).isSome = true := by
  induction d using flatten_items.induct with
  | case1 => simp [dictGet?] at h
  | case2 k0 sub rest ihs ihr =>
      simp only [flatten_items, dictLookupLast_append, dictLookupLast]
      by_cases hk : k = k0
      · cases hrest : dictLookupLast (flatten_items rest) k <;> simp [hk]
      · simp only [dictGet?, if_neg hk] at h
        have := ihr h
        cases hrest : dictLookupLast (flatten_items rest) k <;> simp_all
  | case3 k0 v0 rest hnd ih =>
      simp only [flatten_items, dictLookupLast]
      by_cases hk : k = k0
      · cases hrest : dictLookupLast (flatten_items rest) k <;> simp [hk]
      · simp only [dictGet?, if_neg hk] at h
        have := ih h
        cases hrest : dictLookupLast (flatten_items rest) k <;> simp_all

theorem top_absent_of_flatten_absent (d : List (String × Value)) (k : String)
    (h : dictGet? (flatten_dict d) k = Option.none) : dictGet? d k = Option.none := by
  cases hg : dictGet? d k with
  | none => rfl
  | some v =>
      have := lookupLast_flatten_items_top d k v hg
      rw [flatten_dict, dictGet_dictOfItems] at h
      simp [h] at this

/-! ### Conversion lemmas -/

theorem convert_dict_get (fuel : Nat) (h : Heap) (l out : List (String × Value))
    (hc : convert_dict fuel h l = some out) (k : String) (v : Value)
    (hg : dictGet? l k = some v) :
    ∃ v2, convert_value fuel h v = some v2 ∧ dictGet? out k = some v2 := by
  induction l generalizing out with
  | nil => simp [dictGet?] at hg
  | cons hd tl ih =>
      obtain ⟨k0, v0⟩ := hd
      cases hv0 : convert_value fuel h v0 with
      | none => simp [convert_dict, hv0] at hc
      | some v0c =>
          cases htl : convert_dict fuel h tl with
          | none => simp [convert_dict, hv0, htl] at hc
          | some tlc =>
              have hout : (k0, v0c) :: tlc = out := by
                simpa [convert_dict, hv0, htl] using hc
              by_cases hk : k = k0
              · subst hk
                simp [dictGet?] at hg
                subst hg
                exact ⟨v0c, hv0, by simp [← hout, dictGet?]⟩
              · simp [dictGet?, hk] at hg
                obtain ⟨v2, hcv, hget⟩ := ih tlc htl hg
                exact ⟨v2, hcv, by simp [← hout, dictGet?, hk, hget]⟩

theorem convert_dict_nil (fuel : Nat) (h : Heap) : convert_dict fuel h [] = some [] := by
  simp [convert_dict]

theorem convert_dict_cons (fuel : Nat) (h : Heap) (k : String) (v : Value)
    (rest : List (String × Value)) :
    convert_dict fuel h ((k, v) :: rest)
      = (convert_value fuel h v).bind (fun v2 =>
          (convert_dict fuel h rest).map (fun r2 => (k, v2) :: r2)) := by
  cases hv : convert_value fuel h v with
  | none => simp [convert_dict, hv]
  | some v2 => cases hr : convert_dict fuel h rest <;> simp [convert_dict, hv, hr]

theorem convert_value_ref (fuel : Nat) (h : Heap) (a : Nat) :
    convert_value (fuel + 1) h (Value.ref a)
      = match h[a]? with
        | some obj =>
            match obj.store with
            | Value.dict d0 => (convert_dict fuel h d0).map Value.dict
            | _ => Option.none
        | Option.none => Option.none := by
  cases hA : h[a]? with
  | none => simp [convert_value, hA]
  | some obj => cases hs : obj.store <;> simp [convert_value, hA, hs]

mutual

/-- A plain value converts to itself. -/
theorem convert_value_plain :
    ∀ (fuel : Nat) (h : Heap) (v : Value), plainV v = true →
      convert_value fuel h v = some v
  | fuel, h, Value.ref a, hp => by simp [plainV] at hp
  | fuel, h, Value.record conv, hp => by simp [plainV] at hp
  | fuel, h, Value.dict d, hp => by
      have hd := convert_dict_plain fuel h d (by simpa [plainV] using hp)
      simp [convert_value, hd]
  | fuel, h, Value.seq xs, hp => by simp [convert_value]
  | fuel, h, Value.null, hp => by simp [convert_value]
  | fuel, h, Value.bool b, hp => by simp [convert_value]
  | fuel, h, Value.num q, hp => by simp [convert_value]
  | fuel, h, Value.str s, hp => by simp [convert_value]
  | fuel, h, Value.other t, hp => by simp [convert_value]
termination_by fuel h v hp => sizeOf v

/-- A dict of plain values converts to itself. -/
theorem convert_dict_plain :
    ∀ (fuel : Nat) (h : Heap) (d : List (String × Value)), plainD d = true →
      convert_dict fuel h d = some d
  | fuel, h, [], hp => by simp [convert_dict]
  | fuel, h, (k0, v0) :: tl, hp => by
      simp only [plainD, Bool.and_eq_true] at hp
      have h1 := convert_value_plain fuel h v0 hp.1
      have h2 := convert_dict_plain fuel h tl hp.2
      simp [convert_dict, h1, h2]
termination_by fuel h d hp => sizeOf d

end

/-! ### Default-injection lemmas -/


theorem dictSet_dictSet (d : List (String × Value)) (k : String) (v w : Value) :
    dictSet (dictSet d k v) k w = dictSet d k w := by
  induction d with
  | nil => simp [dictSet]
  | cons hd tl ih =>
      obtain ⟨k0, v0⟩ := hd
      by_cases hk : k = k0 <;> simp [dictSet, hk, ih]

theorem sdv_hasDefaults (m : List (String × Value)) (hd : hasDefaults m = true) :
    set_default_values m = Except.ok m := by
  unfold hasDefaults pathMS at hd
  cases hm : dictGet? m "metadata" with
  | none => simp [hm] at hd
  | some vm =>
      cases vm with
      | dict md =>
          cases hs : dictGet? md "system" with
          | none => simp [hm, hs] at hd
          | some vs =>
              cases vs with
              | dict sys =>
                  simp only [hm, hs] at hd
                  simp only [dictMem, Bool.and_eq_true] at hd
                  simp [set_default_values, dictMem, hm, hs, hd.1, hd.2,
                    dictSet_self md "system" (Value.dict sys) hs,
                    dictSet_self m "metadata" (Value.dict md) hm]
              | _ => simp [hm, hs] at hd
      | _ => simp [hm] at hd

theorem sdv_wf_shape (m : List (String × Value)) (hwf : wfKwargs m = true) :
    ∃ d2 md2 sys2, set_default_values m = Except.ok d2 ∧
      dictGet? d2 "metadata" = some (Value.dict md2) ∧
      dictGet? md2 "system" = some (Value.dict sys2) ∧
      dictGet? sys2 "height" = some ((msGet m "height").getD (Value.num 100)) ∧
      dictGet? sys2 "size" = some ((msGet m "size").getD (Value.num 10)) := by
  unfold wfKwargs at hwf
  cases hm : dictGet? m "metadata" with
  | none =>
      have hok : set_default_values m = Except.ok
          (dictSet (dictSet m "metadata" (Value.dict [])) "metadata"
            (Value.dict [("system",
              Value.dict [("height", Value.num 100), ("size", Value.num 10)])])) := by
        simp [set_default_values, dictMem, hm, dictGet_set, dictSet, dictGet?]
      exact ⟨_, [("system", Value.dict [("height", Value.num 100), ("size", Value.num 10)])],
        [("height", Value.num 100), ("size", Value.num 10)], hok,
        by simp [dictGet_set], by simp [dictGet?],
        by simp [dictGet?, msGet, pathMS, hm],
        by simp [dictGet?, msGet, pathMS, hm]⟩
  | some vm =>
      cases vm with
      | dict md =>
          cases hs : dictGet? md "system" with
          | none =>
              have hok : set_default_values m = Except.ok
                  (dictSet m "metadata" (Value.dict (dictSet md "system"
                    (Value.dict [("height", Value.num 100), ("size", Value.num 10)])))) := by
                simp [set_default_values, dictMem, hm, hs, dictGet_set, dictSet,
                  dictGet?, dictSet_dictSet]
              exact ⟨_, dictSet md "system"
                  (Value.dict [("height", Value.num 100), ("size", Value.num 10)]),
                [("height", Value.num 100), ("size", Value.num 10)], hok,
                by simp [dictGet_set], by simp [dictGet_set],
                by simp [dictGet?, msGet, pathMS, hm, hs],
                by simp [dictGet?, msGet, pathMS, hm, hs]⟩
          | some vs =>
              cases vs with
              | dict sys =>
                  cases hh : dictGet? sys "height" with
                  | none =>
                      cases hz : dictGet? sys "size" with
                      | none =>
                          have hok : set_default_values m = Except.ok
                              (dictSet m "metadata" (Value.dict (dictSet md "system"
                                (Value.dict (dictSet (dictSet sys "height" (Value.num 100))
                                  "size" (Value.num 10)))))) := by
                            simp [set_default_values, dictMem, hm, hs, hh, hz, dictGet_set]
                          exact ⟨_, dictSet md "system" (Value.dict
                              (dictSet (dictSet sys "height" (Value.num 100)) "size"
                                (Value.num 10))),
                            dictSet (dictSet sys "height" (Value.num 100)) "size"
                              (Value.num 10), hok,
                            by simp [dictGet_set], by simp [dictGet_set],
                            by simp [dictGet_set, msGet, pathMS, hm, hs, hh],
                            by simp [dictGet_set, msGet, pathMS, hm, hs, hz]⟩
                      | some oldz =>
                          have hok : set_default_values m = Except.ok
                              (dictSet m "metadata" (Value.dict (dictSet md "system"
                                (Value.dict (dictSet sys "height" (Value.num 100)))))) := by
                            simp [set_default_values, dictMem, hm, hs, hh, hz, dictGet_set]
                          exact ⟨_, dictSet md "system" (Value.dict
                              (dictSet sys "height" (Value.num 100))),
                            dictSet sys "height" (Value.num 100), hok,
                            by simp [dictGet_set], by simp [dictGet_set],
                            by simp [dictGet_set, msGet, pathMS, hm, hs, hh],
                            by simp [dictGet_set, msGet, pathMS, hm, hs, hz]⟩
                  | some oldh =>
                      cases hz : dictGet? sys "size" with
                      | none =>
                          have hok : set_default_values m = Except.ok
                              (dictSet m "metadata" (Value.dict (dictSet md "system"
                                (Value.dict (dictSet sys "size" (Value.num 10)))))) := by
                            simp [set_default_values, dictMem, hm, hs, hh, hz, dictGet_set]
                          exact ⟨_, dictSet md "system" (Value.dict
                              (dictSet sys "size" (Value.num 10))),
                            dictSet sys "size" (Value.num 10), hok,
                            by simp [dictGet_set], by simp [dictGet_set],
                            by simp [dictGet_set, msGet, pathMS, hm, hs, hh],
                            by simp [dictGet_set, msGet, pathMS, hm, hs, hz]⟩
                      | some oldz =>
                          have hok : set_default_values m = Except.ok
                              (dictSet m "metadata" (Value.dict (dictSet md "system"
                                (Value.dict sys)))) := by
                            simp [set_default_values, dictMem, hm, hs, hh, hz, dictGet_set]
                          exact ⟨_, dictSet md "system" (Value.dict sys), sys, hok,
                            by simp [dictGet_set], by simp [dictGet_set],
                            by simp [msGet, pathMS, hm, hs, hh],
                            by simp [msGet, pathMS, hm, hs, hz]⟩
              | _ => simp [hm, hs] at hwf
      | _ => simp [hm] at hwf

theorem sdv_lacksMS (m d2 : List (String × Value)) (hl : lacksMS m = true)
    (hok : set_default_values m = Except.ok d2) :
    ∃ md2, dictGet? d2 "metadata" = some (Value.dict md2) ∧
      dictGet? md2 "system" =
        some (Value.dict [("height", Value.num 100), ("size", Value.num 10)]) := by
  unfold lacksMS at hl
  cases hm : dictGet? m "metadata" with
  | none =>
      have hok2 : set_default_values m = Except.ok
          (dictSet (dictSet m "metadata" (Value.dict [])) "metadata"
            (Value.dict [("system",
              Value.dict [("height", Value.num 100), ("size", Value.num 10)])])) := by
        simp [set_default_values, dictMem, hm, dictGet_set, dictSet, dictGet?]
      rw [hok2] at hok
      cases hok
      exact ⟨[("system", Value.dict [("height", Value.num 100), ("size", Value.num 10)])],
        by simp [dictGet_set], by simp [dictGet?]⟩
  | some vm =>
      cases vm with
      | dict md =>
          simp only [hm] at hl
          have hl2 : dictGet? md "system" = Option.none := by
            cases hsy : dictGet? md "system" <;> simp_all [dictMem]
          have hok2 : set_default_values m = Except.ok
              (dictSet m "metadata" (Value.dict (dictSet md "system"
                (Value.dict [("height", Value.num 100), ("size", Value.num 10)])))) := by
            simp [set_default_values, dictMem, hm, hl2, dictGet_set, dictSet,
              dictGet?, dictSet_dictSet]
          rw [hok2] at hok
          cases hok
          exact ⟨dictSet md "system"
              (Value.dict [("height", Value.num 100), ("size", Value.num 10)]),
            by simp [dictGet_set], by simp [dictGet_set]⟩
      | _ =>
          simp [set_default_values, dictMem, hm] at hok

/-! ### Claim theorems -/



/-- C1: for an instance built from `{"metadata": {"system": {"size": 10.7,
"height": 11}, "user": {"batch": 1121}}}`, attribute reads of `height`,
`size` and `batch` (none of them top-level keys, none underscore-prefixed)
resolve through the flattened view: they return 11, 10.7 and 1121. -/
theorem C1_flatten_lookup :
    from_dict exampleC1 [] = Except.ok (0, [⟨Value.dict exampleC1⟩]) ∧
    getattr [⟨Value.dict exampleC1⟩] 0 "height"
      = Except.ok (Value.num 11, [⟨Value.dict exampleC1⟩]) ∧
    getattr [⟨Value.dict exampleC1⟩] 0 "size"
      = Except.ok (Value.num 10.7, [⟨Value.dict exampleC1⟩]) ∧
    getattr [⟨Value.dict exampleC1⟩] 0 "batch"
      = Except.ok (Value.num 1121, [⟨Value.dict exampleC1⟩]) := by
  refine ⟨?_, ?_, ?_, ?_⟩
  · simp [from_dict, data_init, set_default_values, dictMem, dictGet?, dictSet,
      exampleC1]
  all_goals
    simp [getattr, classAttrs, exampleC1, dictGet?, startsWithUnderscore,
      flatten_dict, flatten_items, dictOfItems, dictSet]

/-- C2 counterexample: the claim quantifies over every initial entry
mapping, but construction with `{"metadata": 5}` raises (a `TypeError`
inside default injection, here the error outcome) instead of ensuring
`metadata.system` exists. -/
theorem C2_counterexample :
    data_init [("metadata", Value.num 5)] [] = Except.error () := by
  simp [data_init, set_default_values, dictMem, dictGet?]

/-- C2 (amended): for every initial entry mapping whose `metadata` entry,
if present, is a mapping and whose `metadata.system` entry, if present, is
a mapping, construction succeeds and ensures `metadata.system` exists,
sets `height` to 100 and `size` to 10 only when those keys are absent and
keeps caller-supplied values (falsy ones included) unchanged; and
constructing with `{"name": "my"}` yields `height == 100` and
`size == 10` when read as attributes. -/
theorem C2_default_injection :
    (∀ (kwargs : List (String × Value)) (h : Heap), wfKwargs kwargs = true →
      ∃ h2 d2 md2 sys2,
        data_init kwargs h = Except.ok (h.length, h2) ∧
        h2[h.length]? = some ⟨Value.dict d2⟩ ∧
        dictGet? d2 "metadata" = some (Value.dict md2) ∧
        dictGet? md2 "system" = some (Value.dict sys2) ∧
        dictGet? sys2 "height" = some ((msGet kwargs "height").getD (Value.num 100)) ∧
        dictGet? sys2 "size" = some ((msGet kwargs "size").getD (Value.num 10))) ∧
    (∃ h0, data_init [("name", Value.str "my")] [] = Except.ok (0, h0) ∧
      getattr h0 0 "height" = Except.ok (Value.num 100, h0) ∧
      getattr h0 0 "size" = Except.ok (Value.num 10, h0)) := by
  constructor
  · intro kwargs h hwf
    obtain ⟨d2, md2, sys2, hok, h1, h2, h3, h4⟩ := sdv_wf_shape kwargs hwf
    exact ⟨h ++ [⟨Value.dict d2⟩], d2, md2, sys2, by simp [data_init, hok],
      by simp, h1, h2, h3, h4⟩
  · refine ⟨[⟨Value.dict (("name", Value.str "my") :: defaultStore)⟩], ?_, ?_, ?_⟩
    · simp [data_init, set_default_values, dictMem, dictGet?, dictSet, defaultStore]
    all_goals
      simp [getattr, classAttrs, defaultStore, dictGet?, startsWithUnderscore,
        flatten_dict, flatten_items, dictOfItems, dictSet]

/-- C2 witness: the amended theorem applied to the concrete mapping
`{"metadata": {"system": {"height": 0}}}`: the falsy caller-supplied
height 0 is preserved and only the absent size receives its default 10. -/
theorem C2_default_injection_witness :
    wfKwargs [("metadata", Value.dict [("system", Value.dict [("height", Value.num 0)])])]
        = true ∧
    ∃ h2 d2 md2 sys2,
      data_init [("metadata", Value.dict [("system", Value.dict [("height", Value.num 0)])])]
          [] = Except.ok (0, h2) ∧
      h2[(0 : Nat)]? = some ⟨Value.dict d2⟩ ∧
      dictGet? d2 "metadata" = some (Value.dict md2) ∧
      dictGet? md2 "system" = some (Value.dict sys2) ∧
      dictGet? sys2 "height" = some ((msGet [("metadata", Value.dict [("system",
        Value.dict [("height", Value.num 0)])])] "height").getD (Value.num 100)) ∧
      dictGet? sys2 "size" = some ((msGet [("metadata", Value.dict [("system",
        Value.dict [("height", Value.num 0)])])] "size").getD (Value.num 10)) :=
  ⟨by simp [wfKwargs, dictGet?],
    C2_default_injection.1 _ [] (by simp [wfKwargs, dictGet?])⟩

/-- C3: for every plain nested mapping `m` without record (dataclass)
values that already defines `metadata.system.height` and
`metadata.system.size`, `from_dict(m).to_dict()` returns `m` itself
(default injection is the identity and the conversion copies every plain
value unchanged), for any dereference budget. -/
theorem C3_round_trip (m : List (String × Value)) (fuel : Nat) (h : Heap)
    (hp : plainD m = true) (hd : hasDefaults m = true) :
    ∃ h1, from_dict m h = Except.ok (h.length, h1) ∧ to_dict fuel h1 h.length = some m := by
  refine ⟨h ++ [⟨Value.dict m⟩], ?_, ?_⟩
  · simp [from_dict, data_init, sdv_hasDefaults m hd]
  · simp [to_dict, convert_dict_plain _ _ m hp]

/-- C3 witness: the round trip at the concrete mapping
`{"metadata": {"system": {"height": 1, "size": 2}}}` with an empty heap. -/
theorem C3_round_trip_witness :
    plainD [("metadata", Value.dict [("system",
        Value.dict [("height", Value.num 1), ("size", Value.num 2)])])] = true ∧
    hasDefaults [("metadata", Value.dict [("system",
        Value.dict [("height", Value.num 1), ("size", Value.num 2)])])] = true ∧
    ∃ h1, from_dict [("metadata", Value.dict [("system",
        Value.dict [("height", Value.num 1), ("size", Value.num 2)])])] []
          = Except.ok (0, h1) ∧
      to_dict 0 h1 0 = some [("metadata", Value.dict [("system",
        Value.dict [("height", Value.num 1), ("size", Value.num 2)])])] :=
  ⟨by simp [plainD, plainV], by simp [hasDefaults, pathMS, dictGet?, dictMem],
    C3_round_trip _ 0 [] (by simp [plainD, plainV])
      (by simp [hasDefaults, pathMS, dictGet?, dictMem])⟩

/-- C4 counterexample: reading the wholly absent underscore name `_foo`
on a default-constructed instance raises `AttributeError` (the error
outcome) instead of returning the absence sentinel; reading `to_dict`,
equally absent from the store and the flattened view, returns the bound
method via normal lookup, not `None`; and after rebinding the store name
`_data` to the non-mapping 5 (a write the claim says always succeeds),
the next write raises a `TypeError`. -/
theorem C4_counterexample :
    getattr [⟨Value.dict defaultStore⟩] 0 "_foo" = Except.error () ∧
    dictGet? (flatten_dict defaultStore) "to_dict" = Option.none ∧
    getattr [⟨Value.dict defaultStore⟩] 0 "to_dict"
      = Except.ok (Value.other "to_dict", [⟨Value.dict defaultStore⟩]) ∧
    Value.other "to_dict" ≠ Value.null ∧
    setattr [⟨Value.dict defaultStore⟩] 0 "_data" (Value.num 5)
      = Except.ok [⟨Value.num 5⟩] ∧
    setattr [⟨Value.num 5⟩] 0 "x" (Value.num 1) = Except.error () := by
  refine ⟨?_, ?_, ?_, ?_, ?_, ?_⟩
  · simp [getattr, classAttrs, defaultStore, dictGet?, startsWithUnderscore]
  · simp [flatten_dict, flatten_items, dictOfItems, dictSet, dictGet?, defaultStore]
  · simp [getattr, classAttrs]
  · simp
  · simp [setattr]
  · simp [setattr]

/-- C4 (amended): on every instance whose store is a mapping, reading a
name that is absent even from the flattened view, does not start with an
underscore and is not one of the class's own attribute names returns the
`None` sentinel without fault, and writing any name with any value
succeeds.  (A class-attribute name resolves to the bound method or slot
by normal lookup before `__getattr__` runs; reading an absent
underscore-prefixed name faults; and once the store has been rebound to
a non-mapping, writes other than to the store name fault.) -/
theorem C4_permissive (h : Heap) (a : Nat) (d : List (String × Value)) (attr : String)
    (hobj : h[a]? = some ⟨Value.dict d⟩)
    (hu : startsWithUnderscore attr = false)
    (hclass : attr ∉ classAttrs)
    (habs : dictGet? (flatten_dict d) attr = Option.none) :
    getattr h a attr = Except.ok (Value.null, h) ∧
    ∀ (name : String) (v : Value), ∃ h2, setattr h a name v = Except.ok h2 := by
  constructor
  · have htop : dictGet? d attr = Option.none := top_absent_of_flatten_absent d attr habs
    simp [getattr, hclass, hobj, htop, hu, habs]
  · intro name v
    by_cases hn : name = "_data"
    · exact ⟨h.set a ⟨v⟩, by simp [setattr, hobj, hn]⟩
    · exact ⟨h.set a ⟨Value.dict (dictSet d name v)⟩, by simp [setattr, hobj, hn]⟩

/-- C4 witness: the amended theorem at the default-constructed instance,
the absent name `color` and a write of `42` to `answer`. -/
theorem C4_permissive_witness :
    ([⟨Value.dict defaultStore⟩] : Heap)[(0 : Nat)]? = some ⟨Value.dict defaultStore⟩ ∧
    startsWithUnderscore "color" = false ∧
    "color" ∉ classAttrs ∧
    dictGet? (flatten_dict defaultStore) "color" = Option.none ∧
    (getattr [⟨Value.dict defaultStore⟩] 0 "color"
        = Except.ok (Value.null, [⟨Value.dict defaultStore⟩]) ∧
      ∀ (name : String) (v : Value), ∃ h2,
        setattr [⟨Value.dict defaultStore⟩] 0 name v = Except.ok h2) :=
  ⟨by simp, by simp [startsWithUnderscore], by simp [classAttrs],
    by simp [flatten_dict, flatten_items, dictOfItems, dictSet, dictGet?, defaultStore],
    C4_permissive _ 0 defaultStore "color" (by simp) (by simp [startsWithUnderscore])
      (by simp [classAttrs])
      (by simp [flatten_dict, flatten_items, dictOfItems, dictSet, dictGet?, defaultStore])⟩


/-- C5 counterexample: writing the reserved store name `_data` rebinds the
store instead of inserting the key (the new store does not map `_data` at
all); after writing a mapping value to `x`, reading `x` back returns a
freshly materialized wrapper reference, not the written mapping; and
after writing 5 to the method name `to_dict` (which does land in the
store), reading `to_dict` back returns the bound method via normal
lookup, not 5. -/
theorem C5_counterexample :
    (setattr [⟨Value.dict defaultStore⟩] 0 "_data" (Value.dict [])
        = Except.ok [⟨Value.dict []⟩] ∧
      dictGet? [] "_data" = Option.none) ∧
    (setattr [⟨Value.dict defaultStore⟩] 0 "x" (Value.dict [])
        = Except.ok [⟨Value.dict (defaultStore ++ [("x", Value.dict [])])⟩] ∧
      getattr [⟨Value.dict (defaultStore ++ [("x", Value.dict [])])⟩] 0 "x"
        = Except.ok (Value.ref 1,
            [⟨Value.dict (defaultStore ++ [("x", Value.ref 1)])⟩,
             ⟨Value.dict defaultStore⟩]) ∧
      Value.ref 1 ≠ Value.dict []) ∧
    (setattr [⟨Value.dict defaultStore⟩] 0 "to_dict" (Value.num 5)
        = Except.ok [⟨Value.dict (defaultStore ++ [("to_dict", Value.num 5)])⟩] ∧
      getattr [⟨Value.dict (defaultStore ++ [("to_dict", Value.num 5)])⟩] 0 "to_dict"
        = Except.ok (Value.other "to_dict",
            [⟨Value.dict (defaultStore ++ [("to_dict", Value.num 5)])⟩]) ∧
      Value.other "to_dict" ≠ Value.num 5) := by
  refine ⟨⟨?_, ?_⟩, ⟨?_, ?_, ?_⟩, ?_, ?_, ?_⟩
  · simp [setattr]
  · simp [dictGet?]
  · simp [setattr, defaultStore, dictSet, dictGet?]
  · simp [getattr, classAttrs, defaultStore, dictGet?, data_init,
      set_default_values, dictMem, dictSet]
  · simp
  · simp [setattr, defaultStore, dictSet, dictGet?]
  · simp [getattr, classAttrs]
  · simp

/-- C5 (amended): for every instance and every name other than the
reserved store name `_data`, a write lands in the top-level store (which
then maps the name to the written value) and leaves every other entry -
in particular every nested mapping - unchanged (deeper same-named keys
are shadowed, not updated); a subsequent read returns the written value
provided the name is not one of the class's own attribute names (those
resolve to the bound method by normal lookup) and the value is not a
plain mapping (a mapping value comes back wrapped); in particular after
`set_attribute("height", 5)` on an instance whose
`metadata.system.height` is 11, reading `height` returns 5. -/
theorem C5_write_top :
    (∀ (h : Heap) (a : Nat) (d : List (String × Value)) (attr : String) (v : Value),
      h[a]? = some ⟨Value.dict d⟩ → attr ≠ "_data" →
      setattr h a attr v = Except.ok (h.set a ⟨Value.dict (dictSet d attr v)⟩) ∧
      dictGet? (dictSet d attr v) attr = some v ∧
      (∀ k, k ≠ attr → dictGet? (dictSet d attr v) k = dictGet? d k) ∧
      (attr ∉ classAttrs → (∀ sub, v ≠ Value.dict sub) →
        getattr (h.set a ⟨Value.dict (dictSet d attr v)⟩) a attr
          = Except.ok (v, h.set a ⟨Value.dict (dictSet d attr v)⟩))) ∧
    (setattr [⟨Value.dict exampleC5⟩] 0 "height" (Value.num 5)
        = Except.ok [⟨Value.dict (exampleC5 ++ [("height", Value.num 5)])⟩] ∧
      getattr [⟨Value.dict (exampleC5 ++ [("height", Value.num 5)])⟩] 0 "height"
        = Except.ok (Value.num 5,
            [⟨Value.dict (exampleC5 ++ [("height", Value.num 5)])⟩])) := by
  refine ⟨?_, ?_, ?_⟩
  · intro h a d attr v hobj hattr
    have ha : a < h.length := by
      rcases List.getElem?_eq_some.mp hobj with ⟨ha, _⟩
      exact ha
    refine ⟨by simp [setattr, hobj, hattr], by simp [dictGet_set], ?_, ?_⟩
    · intro k hk
      simp [dictGet_set, hk]
    · intro hclass hnd
      have hset : (h.set a (⟨Value.dict (dictSet d attr v)⟩ : Obj))[a]?
          = some ⟨Value.dict (dictSet d attr v)⟩ := by
        simp [List.getElem?_set_self', ha]
      cases v with
      | dict sub => exact absurd rfl (hnd sub)
      | _ => simp [getattr, hclass, hset, dictGet_set]
  · simp [setattr, exampleC5, dictSet, dictGet?]
  · simp [getattr, classAttrs, exampleC5, dictGet?]

/-- C5 witness: the amended statement applied on the default-constructed
instance, writing 7 to `color` and reading it back. -/
theorem C5_write_top_witness :
    ([⟨Value.dict defaultStore⟩] : Heap)[(0 : Nat)]? = some ⟨Value.dict defaultStore⟩ ∧
    "color" ≠ "_data" ∧
    (setattr [⟨Value.dict defaultStore⟩] 0 "color" (Value.num 7)
        = Except.ok ([⟨Value.dict defaultStore⟩].set 0
            ⟨Value.dict (dictSet defaultStore "color" (Value.num 7))⟩) ∧
      dictGet? (dictSet defaultStore "color" (Value.num 7)) "color"
        = some (Value.num 7) ∧
      (∀ k, k ≠ "color" →
        dictGet? (dictSet defaultStore "color" (Value.num 7)) k
          = dictGet? defaultStore k) ∧
      ("color" ∉ classAttrs → (∀ sub, Value.num 7 ≠ Value.dict sub) →
        getattr ([⟨Value.dict defaultStore⟩].set 0
            ⟨Value.dict (dictSet defaultStore "color" (Value.num 7))⟩) 0 "color"
          = Except.ok (Value.num 7, [⟨Value.dict defaultStore⟩].set 0
              ⟨Value.dict (dictSet defaultStore "color" (Value.num 7))⟩))) :=
  ⟨by simp, by simp,
    C5_write_top.1 _ 0 defaultStore "color" (Value.num 7) (by simp) (by simp)⟩

/-- C6: the asymmetric conversion rule of `to_dict`: per stored value,
dicts are converted recursively, record (dataclass) instances - `Data`
references included - are replaced by their own `to_dict` result, and
every other value, sequences included, is copied unchanged (so wrappers
or records nested inside a sequence stay unconverted); a dict is
converted entrywise in order. -/
theorem C6_convert_rule (fuel : Nat) (h : Heap) :
    (∀ (d : List (String × Value)), convert_value fuel h (Value.dict d)
        = (convert_dict fuel h d).map Value.dict) ∧
    (∀ (conv : List (String × Value)), convert_value fuel h (Value.record conv)
        = some (Value.dict conv)) ∧
    (∀ (a : Nat), convert_value (fuel + 1) h (Value.ref a)
        = (to_dict fuel h a).map Value.dict) ∧
    (∀ (xs : List Value), convert_value fuel h (Value.seq xs) = some (Value.seq xs)) ∧
    (∀ (q : Rat), convert_value fuel h (Value.num q) = some (Value.num q)) ∧
    (∀ (s : String), convert_value fuel h (Value.str s) = some (Value.str s)) ∧
    (∀ (b : Bool), convert_value fuel h (Value.bool b) = some (Value.bool b)) ∧
    (∀ (t : String), convert_value fuel h (Value.other t) = some (Value.other t)) ∧
    convert_value fuel h Value.null = some Value.null ∧
    convert_dict fuel h [] = some [] ∧
    (∀ (k : String) (v : Value) (rest : List (String × Value)),
      convert_dict fuel h ((k, v) :: rest)
        = (convert_value fuel h v).bind (fun v2 =>
            (convert_dict fuel h rest).map (fun r2 => (k, v2) :: r2))) := by
  refine ⟨?_, ?_, ?_, ?_, ?_, ?_, ?_, ?_, ?_, ?_, ?_⟩
  · intro d
    cases hc : convert_dict fuel h d <;> simp [convert_value, hc]
  · intro conv
    simp [convert_value]
  · intro a
    cases hA : h[a]? with
    | none => simp [convert_value, to_dict, hA]
    | some obj =>
        cases hs : obj.store <;> simp [convert_value, to_dict, hA, hs]
  · intro xs
    simp [convert_value]
  · intro q
    simp [convert_value]
  · intro s
    simp [convert_value]
  · intro b
    simp [convert_value]
  · intro t
    simp [convert_value]
  · simp [convert_value]
  · simp [convert_dict]
  · intro k v rest
    cases hv : convert_value fuel h v with
    | none => simp [convert_dict, hv]
    | some v2 =>
        cases hr : convert_dict fuel h rest <;> simp [convert_dict, hv, hr]

/-- C7: looking any key up in `flatten_dict`'s result agrees with the
last occurrence of that key in the raw recurse-first-then-insert-self
walk described by the spec (`specWalkItems`) - so nested mappings appear
in addition to their descendants, siblings are walked in iteration order,
and same-named keys at several depths are resolved by the later
occurrence overwriting the earlier. -/
theorem C7_flatten_walk_order :
    (∀ (d : List (String × Value)) (k : String),
      dictGet? (flatten_dict d) k = dictLookupLast (specWalkItems d) k) ∧
    (∀ (k : String) (sub rest : List (String × Value)),
      specWalkItems ((k, Value.dict sub) :: rest)
        = specWalkItems sub ++ (k, Value.dict sub) :: specWalkItems rest) := by
  exact ⟨flatten_get_eq_specWalk, fun k sub rest => by simp [specWalkItems]⟩



/-- C9: after `metadata` has been read once (materializing it into a
wrapper at address 1), flattening no longer reaches inside that subtree -
it does not recurse into wrapper references - so reading `height` now
returns the `None` sentinel instead of 11. -/
theorem C9_materialization_shadows :
    getattr [⟨Value.dict exampleC9⟩] 0 "metadata"
      = Except.ok (Value.ref 1,
          [⟨Value.dict [("metadata", Value.ref 1)]⟩, ⟨Value.dict exampleC9Wrapper⟩]) ∧
    getattr [⟨Value.dict [("metadata", Value.ref 1)]⟩, ⟨Value.dict exampleC9Wrapper⟩]
        0 "height"
      = Except.ok (Value.null,
          [⟨Value.dict [("metadata", Value.ref 1)]⟩, ⟨Value.dict exampleC9Wrapper⟩]) ∧
    (∀ (k : String) (a : Nat) (rest : List (String × Value)),
      flatten_items ((k, Value.ref a) :: rest) = (k, Value.ref a) :: flatten_items rest) := by
  refine ⟨?_, ?_, ?_⟩
  · simp [getattr, classAttrs, exampleC9, exampleC9Wrapper, dictGet?, data_init,
      set_default_values, dictMem, dictSet]
  · simp [getattr, classAttrs, exampleC9Wrapper, dictGet?, startsWithUnderscore,
      flatten_dict, flatten_items, dictOfItems, dictSet]
  · intro k a rest
    simp [flatten_items]

/-- C8 counterexample: on an instance whose store maps the top-level key
`x` to the plain mapping `{"metadata": 5}`, the first read of `x` raises
(default injection inside `Data(**value)` faults on the non-mapping
`metadata`) instead of replacing the mapping with a wrapper and returning
it; and on an instance whose store maps the method name `to_dict` to the
plain mapping `{}`, the read resolves to the bound method by normal
lookup - heap and store stay unchanged and nothing is materialized. -/
theorem C8_counterexample :
    getattr [⟨Value.dict [("x", Value.dict [("metadata", Value.num 5)])]⟩] 0 "x"
      = Except.error () ∧
    getattr [⟨Value.dict [("to_dict", Value.dict [])]⟩] 0 "to_dict"
      = Except.ok (Value.other "to_dict", [⟨Value.dict [("to_dict", Value.dict [])]⟩]) ∧
    Value.other "to_dict" ≠ Value.ref 1 := by
  refine ⟨?_, ?_, ?_⟩
  · simp [getattr, classAttrs, dictGet?, data_init, set_default_values, dictMem]
  · simp [getattr, classAttrs]
  · simp

/-- C8 (amended): for every instance whose store maps a top-level key -
not one of the class's own attribute names - to a plain mapping on which
default injection succeeds (its `metadata` entry, if present, is a
mapping, and likewise `metadata.system`), the first read of that key
allocates a wrapper holding that mapping (with defaults injected),
replaces the stored mapping with the wrapper reference and returns it; a
second read of the same key returns the very same wrapper address and
leaves the heap unchanged; the wrapper's store is exactly the injected
mapping, exposed through the same attribute-read operation. -/
theorem C8_memoized_materialization (h : Heap) (a : Nat) (d sub sub2 : List (String × Value))
    (key : String)
    (hkey : key ∉ classAttrs)
    (hobj : h[a]? = some ⟨Value.dict d⟩)
    (hget : dictGet? d key = some (Value.dict sub))
    (hsdv : set_default_values sub = Except.ok sub2) :
    getattr h a key = Except.ok (Value.ref h.length,
      (h ++ ([⟨Value.dict sub2⟩] : Heap)).set a
        ⟨Value.dict (dictSet d key (Value.ref h.length))⟩) ∧
    ((h ++ ([⟨Value.dict sub2⟩] : Heap)).set a
        ⟨Value.dict (dictSet d key (Value.ref h.length))⟩)[h.length]?
      = some ⟨Value.dict sub2⟩ ∧
    ((h ++ ([⟨Value.dict sub2⟩] : Heap)).set a
        ⟨Value.dict (dictSet d key (Value.ref h.length))⟩)[a]?
      = some ⟨Value.dict (dictSet d key (Value.ref h.length))⟩ ∧
    getattr ((h ++ ([⟨Value.dict sub2⟩] : Heap)).set a
        ⟨Value.dict (dictSet d key (Value.ref h.length))⟩) a key
      = Except.ok (Value.ref h.length,
          (h ++ ([⟨Value.dict sub2⟩] : Heap)).set a
            ⟨Value.dict (dictSet d key (Value.ref h.length))⟩) := by
  have ha : a < h.length := by
    rcases List.getElem?_eq_some.mp hobj with ⟨ha, _⟩
    exact ha
  have hL : ((h ++ ([⟨Value.dict sub2⟩] : Heap)).set a
      ⟨Value.dict (dictSet d key (Value.ref h.length))⟩)[h.length]?
      = some ⟨Value.dict sub2⟩ := by
    rw [List.getElem?_set_ne (Nat.ne_of_lt ha)]
    simp
  have hA : ((h ++ ([⟨Value.dict sub2⟩] : Heap)).set a
      ⟨Value.dict (dictSet d key (Value.ref h.length))⟩)[a]?
      = some ⟨Value.dict (dictSet d key (Value.ref h.length))⟩ := by
    have hlen : a < (h ++ ([⟨Value.dict sub2⟩] : Heap)).length := by
      simp
      omega
    simp [List.getElem?_set_self', hlen]
    exact ⟨_, List.getElem?_eq_getElem hlen⟩
  refine ⟨?_, hL, hA, ?_⟩
  · simp [getattr, hkey, hobj, hget, data_init, hsdv]
  · simp [getattr, hkey, hA, dictGet_set]

/-- C8 witness: the memoization theorem at a concrete one-key instance
whose `inner` key holds `{"flag": true}`. -/
theorem C8_memoized_materialization_witness :
    "inner" ∉ classAttrs ∧
    ([⟨Value.dict [("inner", Value.dict [("flag", Value.bool true)])]⟩] : Heap)[(0 : Nat)]?
        = some ⟨Value.dict [("inner", Value.dict [("flag", Value.bool true)])]⟩ ∧
    dictGet? [("inner", Value.dict [("flag", Value.bool true)])] "inner"
        = some (Value.dict [("flag", Value.bool true)]) ∧
    set_default_values [("flag", Value.bool true)]
        = Except.ok ([("flag", Value.bool true)] ++ defaultStore) ∧
    getattr [⟨Value.dict [("inner", Value.dict [("flag", Value.bool true)])]⟩] 0 "inner"
      = Except.ok (Value.ref 1,
          (([⟨Value.dict [("inner", Value.dict [("flag", Value.bool true)])]⟩] : Heap)
              ++ ([⟨Value.dict ([("flag", Value.bool true)] ++ defaultStore)⟩] : Heap)).set 0
            ⟨Value.dict (dictSet [("inner", Value.dict [("flag", Value.bool true)])]
              "inner" (Value.ref 1))⟩) :=
  ⟨by simp [classAttrs], by simp, by simp [dictGet?],
    by simp [set_default_values, dictMem, dictGet?, dictSet, defaultStore],
    (C8_memoized_materialization
      [⟨Value.dict [("inner", Value.dict [("flag", Value.bool true)])]⟩] 0
      [("inner", Value.dict [("flag", Value.bool true)])]
      [("flag", Value.bool true)]
      ([("flag", Value.bool true)] ++ defaultStore)
      "inner" (by simp [classAttrs]) (by simp) (by simp [dictGet?])
      (by simp [set_default_values, dictMem, dictGet?, dictSet, defaultStore])).1⟩

/-- C10 counterexample: on an instance whose store maps the method name
`to_dict` to the plain mapping `{}` (which lacks `metadata.system`),
reading that key resolves to the bound method by normal lookup -
`__getattr__` never runs and nothing is materialized - and `to_dict`
afterwards still returns the sub-mapping with no injected defaults
nested under the key. -/
theorem C10_counterexample :
    dictGet? [("to_dict", Value.dict [])] "to_dict" = some (Value.dict []) ∧
    lacksMS [] = true ∧
    getattr [⟨Value.dict [("to_dict", Value.dict [])]⟩] 0 "to_dict"
      = Except.ok (Value.other "to_dict", [⟨Value.dict [("to_dict", Value.dict [])]⟩]) ∧
    to_dict 0 [⟨Value.dict [("to_dict", Value.dict [])]⟩] 0
      = some [("to_dict", Value.dict [])] ∧
    dictGet? [] "metadata" = Option.none := by
  refine ⟨?_, ?_, ?_, ?_, ?_⟩
  · simp [dictGet?]
  · simp [lacksMS, dictGet?]
  · simp [getattr, classAttrs]
  · have h0 : convert_value 0 [⟨Value.dict [("to_dict", Value.dict [])]⟩]
        (Value.dict []) = some (Value.dict []) :=
      convert_value_plain 0 _ _ (by simp [plainV, plainD])
    simp only [to_dict, List.getElem?_cons_zero]
    rw [convert_dict_cons, h0, convert_dict_nil]
    simp
  · simp [dictGet?]

/-- C10 (amended): for every instance with a top-level key that is not
one of the class's own attribute names and whose mapping value lacks
`metadata.system`, a completed read of that key materializes it through
the constructor, so default injection runs on the sub-mapping: any
`to_dict` result obtained after the read nests
`metadata.system.height == 100` and `metadata.system.size == 10` under
that key - a read alone changes the result of `to_dict`. -/
theorem C10_read_injects_defaults (h : Heap) (a : Nat) (d sub : List (String × Value))
    (key : String) (v : Value) (h1 : Heap) (fuel : Nat) (out : List (String × Value))
    (hkey : key ∉ classAttrs)
    (hobj : h[a]? = some ⟨Value.dict d⟩)
    (hget : dictGet? d key = some (Value.dict sub))
    (hlacks : lacksMS sub = true)
    (hread : getattr h a key = Except.ok (v, h1))
    (htd : to_dict fuel h1 a = some out) :
    ∃ kd md2 sys2, dictGet? out key = some (Value.dict kd) ∧
      dictGet? kd "metadata" = some (Value.dict md2) ∧
      dictGet? md2 "system" = some (Value.dict sys2) ∧
      dictGet? sys2 "height" = some (Value.num 100) ∧
      dictGet? sys2 "size" = some (Value.num 10) := by
  have ha : a < h.length := by
    rcases List.getElem?_eq_some.mp hobj with ⟨ha, _⟩
    exact ha
  cases hsdv : set_default_values sub with
  | error e => simp [getattr, hkey, hobj, hget, data_init, hsdv] at hread
  | ok sub2 =>
      simp only [getattr, if_neg hkey, hobj, hget, data_init, hsdv] at hread
      obtain ⟨hv, hh1⟩ : Value.ref h.length = v ∧
          (h ++ ([⟨Value.dict sub2⟩] : Heap)).set a
            ⟨Value.dict (dictSet d key (Value.ref h.length))⟩ = h1 := by
        simpa using hread
      subst hh1
      have hA : ((h ++ ([⟨Value.dict sub2⟩] : Heap)).set a
          ⟨Value.dict (dictSet d key (Value.ref h.length))⟩)[a]?
          = some ⟨Value.dict (dictSet d key (Value.ref h.length))⟩ := by
        have hlen : a < (h ++ ([⟨Value.dict sub2⟩] : Heap)).length := by
          simp
          omega
        simp [List.getElem?_set_self', hlen]
        exact ⟨_, List.getElem?_eq_getElem hlen⟩
      have hL : ((h ++ ([⟨Value.dict sub2⟩] : Heap)).set a
          ⟨Value.dict (dictSet d key (Value.ref h.length))⟩)[h.length]?
          = some ⟨Value.dict sub2⟩ := by
        rw [List.getElem?_set_ne (Nat.ne_of_lt ha)]
        simp
      simp only [to_dict, hA] at htd
      obtain ⟨v2, hcv, hout⟩ := convert_dict_get fuel _ _ out htd key
        (Value.ref h.length) (by simp [dictGet_set])
      cases fuel with
      | zero => simp [convert_value] at hcv
      | succ fuel2 =>
          simp only [convert_value, hL] at hcv
          cases hkd : convert_dict fuel2 ((h ++ ([⟨Value.dict sub2⟩] : Heap)).set a
              ⟨Value.dict (dictSet d key (Value.ref h.length))⟩) sub2 with
          | none => rw [hkd] at hcv; simp at hcv
          | some kd =>
              rw [hkd] at hcv
              have hv2 : v2 = Value.dict kd := by
                simpa using hcv.symm
              obtain ⟨md2r, hm1, hm2⟩ := sdv_lacksMS sub sub2 hlacks hsdv
              obtain ⟨v3, hcv3, hkdget⟩ := convert_dict_get fuel2 _ sub2 kd hkd
                "metadata" (Value.dict md2r) hm1
              simp only [convert_value] at hcv3
              cases hmd : convert_dict fuel2 ((h ++ ([⟨Value.dict sub2⟩] : Heap)).set a
                  ⟨Value.dict (dictSet d key (Value.ref h.length))⟩) md2r with
              | none => rw [hmd] at hcv3; simp at hcv3
              | some md2c =>
                  rw [hmd] at hcv3
                  have hv3 : v3 = Value.dict md2c := by
                    simpa using hcv3.symm
                  obtain ⟨v4, hcv4, hmdget⟩ := convert_dict_get fuel2 _ md2r md2c hmd
                    "system" (Value.dict [("height", Value.num 100), ("size", Value.num 10)]) hm2
                  have hv4 : v4 = Value.dict [("height", Value.num 100), ("size", Value.num 10)] := by
                    have hp := convert_value_plain fuel2
                      ((h ++ ([⟨Value.dict sub2⟩] : Heap)).set a
                        ⟨Value.dict (dictSet d key (Value.ref h.length))⟩)
                      (Value.dict [("height", Value.num 100), ("size", Value.num 10)])
                      (by simp [plainV, plainD])
                    rw [hp] at hcv4
                    exact (Option.some.inj hcv4).symm
                  refine ⟨kd, md2c, [("height", Value.num 100), ("size", Value.num 10)],
                    ?_, ?_, ?_, by simp [dictGet?], by simp [dictGet?]⟩
                  · rw [hout, hv2]
                  · rw [hkdget, hv3]
                  · rw [hmdget, hv4]


/-- C10 witness: the theorem at the concrete instance `{"x": {}}`: after
reading `x` once, `to_dict` (with dereference budget 1) nests the full
injected default path under `x`. -/
theorem C10_read_injects_defaults_witness :
    "x" ∉ classAttrs ∧
    ([⟨Value.dict [("x", Value.dict [])]⟩] : Heap)[(0 : Nat)]?
        = some ⟨Value.dict [("x", Value.dict [])]⟩ ∧
    dictGet? [("x", Value.dict [])] "x" = some (Value.dict []) ∧
    lacksMS [] = true ∧
    getattr [⟨Value.dict [("x", Value.dict [])]⟩] 0 "x"
      = Except.ok (Value.ref 1,
          [⟨Value.dict [("x", Value.ref 1)]⟩, ⟨Value.dict defaultStore⟩]) ∧
    to_dict 1 [⟨Value.dict [("x", Value.ref 1)]⟩, ⟨Value.dict defaultStore⟩] 0
      = some [("x", Value.dict defaultStore)] ∧
    ∃ kd md2 sys2,
      dictGet? [("x", Value.dict defaultStore)] "x" = some (Value.dict kd) ∧
      dictGet? kd "metadata" = some (Value.dict md2) ∧
      dictGet? md2 "system" = some (Value.dict sys2) ∧
      dictGet? sys2 "height" = some (Value.num 100) ∧
      dictGet? sys2 "size" = some (Value.num 10) := by
  have hplain : plainD defaultStore = true := by
    simp [plainD, plainV, defaultStore]
  have hread : getattr [⟨Value.dict [("x", Value.dict [])]⟩] 0 "x"
      = Except.ok (Value.ref 1,
          [⟨Value.dict [("x", Value.ref 1)]⟩, ⟨Value.dict defaultStore⟩]) := by
    simp [getattr, classAttrs, dictGet?, data_init, set_default_values, dictMem,
      dictSet, defaultStore]
  have hcv : convert_value 1 [⟨Value.dict [("x", Value.ref 1)]⟩, ⟨Value.dict defaultStore⟩]
      (Value.ref 1) = some (Value.dict defaultStore) := by
    rw [show (1 : Nat) = 0 + 1 from rfl, convert_value_ref]
    simp [convert_dict_plain 0 _ defaultStore hplain]
  have htd : to_dict 1 [⟨Value.dict [("x", Value.ref 1)]⟩, ⟨Value.dict defaultStore⟩] 0
      = some [("x", Value.dict defaultStore)] := by
    simp only [to_dict, List.getElem?_cons_zero]
    rw [convert_dict_cons, hcv, convert_dict_nil]
    simp
  refine ⟨by simp [classAttrs], by simp, by simp [dictGet?],
    by simp [lacksMS, dictGet?], hread, htd, ?_⟩
  exact C10_read_injects_defaults [⟨Value.dict [("x", Value.dict [])]⟩] 0
      [("x", Value.dict [])] [] "x" (Value.ref 1)
      [⟨Value.dict [("x", Value.ref 1)]⟩, ⟨Value.dict defaultStore⟩] 1
      [("x", Value.dict defaultStore)]
      (by simp [classAttrs]) (by simp) (by simp [dictGet?])
      (by simp [lacksMS, dictGet?]) hread htd
